import Mathlib

/-!
# Waitlist Registration Bot — shallow embedding and verification

A shallow embedding of the waitlist registration Telegram bot
(`src/bot.py`, `src/database.py`, `src/strings/en.py`) together with
theorems settling the specification claims about it.

Modelling conventions:
* Python strings become `String` / `List Char`; `str.strip()` becomes
  `pyStripList` over the character list.
* The SQLAlchemy store (`database.py`) becomes the `Store` structure:
  `admins` is the `admins` table (list of user ids), `entries` the
  `waitlist_entries` table in insertion order.  `created_at` (assigned
  from a monotone clock at insert time, as `datetime.utcnow` is) is an
  increasing `Nat` counter; `id` (autoincrement) is `nextId`.
* `secrets.choice`-based password generation is nondeterministic; the
  dispatch step takes a password supply `pwGen : Nat → String` as a
  parameter in its place.
* Outbound Telegram calls become values of `Out`; database operations
  performed by an update are logged in a `DbOp` trace so that
  frame claims ("no store access") are expressible.
* The `catch_telegram_errors` decorator is embedded as `wrapperLoop`,
  driven by a per-attempt outcome oracle `f : Nat → Except TgErr α`
  and a fuel bound (the Python loop can spin forever on repeated
  `RetryAfter`; exhausted fuel is reported as `.diverged`).
-/

namespace WaitlistSpec

/-! ## Localized strings (`src/strings/en.py`) -/

def msg_ask_username : String :=
  "✨ What <b>username</b> would you like for our platform?\n\n📝 Use 5–32 characters: letters, numbers, underscore\n💡 Example: <code>myusername</code>"

def msg_username_taken : String :=
  "❌ That username is already taken.\n\n👉 Please choose another one!"

def msg_username_invalid : String :=
  "⚠️ Invalid username.\n\nUse 5–32 characters: letters, numbers, underscore only.\n💡 Example: <code>myusername</code>"

def msg_registered : String :=
  "🎉 You\x27re on the list!\n\n✅ We\x27ll notify you when the platform launches."

def msg_welcome_back : String :=
  "👋 Welcome back! You\x27re already on the waitlist."

def msg_coming_soon_btn : String := "🚀 Coming soon"

def msg_coming_soon_response : String :=
  "🌐 <b>First .onion marketplace for the whole Balkans — and beyond!</b>\n\nWe\x27re almost finished. Register ASAP to test our platform with balance bonuses!\n\n💰 <b>Welcome bonus tiers:</b>\n\n🥇 Users 1–50 → <b>12 EUR</b> welcome bonus\n🥈 Users 51–100 → <b>5 EUR</b> welcome bonus  \n🥉 Users 101+ → <b>1 EUR</b> welcome bonus\n\n⚡ Don\x27t miss out — secure your spot now!"

def msg_admin_download : String := "📥 Download users .txt file"

def msg_file_caption : String := "📋 Waitlist users export (older → newer)"

def msg_first_admin : String :=
  "👑 You\x27re the first user — you\x27re now admin!\n\n👇 Choose your username below to join the waitlist."

def msg_admin_menu : String :=
  "🔐 <b>Admin menu</b>\n\nUse the keyboard below to manage the waitlist."

def msg_private_only : String :=
  "🔒 This bot only works in private chats. Please message me directly!"

/-! ## Python `str.strip()` -/

/-- The ASCII whitespace characters stripped by Python `str.strip()`
(space, tab, newline, carriage return, vertical tab, form feed). -/
def pyIsSpace (c : Char) : Bool :=
  c = ' ' || c = '\t' || c = '\n' || c = '\r' || c = '\x0b' || c = '\x0c'

/-- `str.strip()` on a character list: drop whitespace from both ends. -/
def pyStripList (cs : List Char) : List Char :=
  ((cs.dropWhile pyIsSpace).reverse.dropWhile pyIsSpace).reverse

/-- `str.strip()` on a string. -/
def pyStrip (s : String) : String :=
  String.mk (pyStripList s.toList)

/-! ## `normalize_username` (`src/bot.py` lines 30–47)

The regex is `^@?([a-zA-Z][a-zA-Z0-9_]{4,31})$`: an optional leading `@`,
then a letter followed by 4–31 characters from `[a-zA-Z0-9_]`. -/

/-- Does `cs` match the capture group `[a-zA-Z][a-zA-Z0-9_]{4,31}` of
`USERNAME_RE` (a letter, then word characters, 5–32 characters total)? -/
def usernameBodyOk (cs : List Char) : Bool :=
  match cs with
  | [] => false
  | c :: rest =>
    c.isAlpha && rest.all (fun d => d.isAlphanum || d = '_') &&
      decide (5 ≤ cs.length) && decide (cs.length ≤ 32)

/-- The `@?` part of `USERNAME_RE`: consume one optional leading `@`. -/
def stripMarker (cs : List Char) : List Char :=
  match cs with
  | c :: rest => if c = '@' then rest else cs
  | [] => cs

/-- `normalize_username` on the character list of the raw input:
strip, reject empty, match `USERNAME_RE`, return `@` + lowercased group. -/
def normalizeChars (raw : List Char) : Option (List Char) :=
  let t := pyStripList raw
  if t.isEmpty then none
  else
    let body := stripMarker t
    if usernameBodyOk body then some ('@' :: body.map Char.toLower) else none

/-- `normalize_username(raw)` from `src/bot.py`:
strip the input, reject empty input, match `USERNAME_RE`, and return
the `@`-prefixed lower-cased capture group, or `None` on any failure. -/
def normalize_username (raw : String) : Option String :=
  (normalizeChars raw.toList).map String.mk

/-! ## `catch_telegram_errors` (`src/bot.py` lines 56–99) -/

/-- The `telegram.error` exception kinds distinguished by the decorator's
`except` clauses (in clause order). -/
inductive TgErr where
  | unauthorized
  | retryAfter (delay : Nat)
  | timedOut
  | networkError
  | badRequest (msg : String)
  | otherTelegramError (msg : String)
deriving Repr, DecidableEq

/-- What the caller of a wrapped function observes. -/
inductive CallOutcome (α : Type) where
  | ok (a : α)
  | noResult
  | raised (e : TgErr)
  | diverged
deriving Repr, DecidableEq

/-- `needle in hay` on character lists (Python `in` for strings). -/
def startsWithChars : List Char → List Char → Bool
  | [], _ => true
  | _ :: _, [] => false
  | a :: as, b :: bs => a = b && startsWithChars as bs

/-- Substring containment on character lists. -/
def charListHasSub (needle : List Char) : List Char → Bool
  | [] => needle.isEmpty
  | c :: t => startsWithChars needle (c :: t) || charListHasSub needle t

/-- `"not found" in str(e).lower()` — the `BadRequest` message test of the
decorator.  (The Python code tests `"chat not found" in err or
"not found" in err`; the first disjunct is subsumed by the second.) -/
def msgHasNotFound (m : String) : Bool :=
  charListHasSub "not found".toList (m.toList.map Char.toLower)

/-- The `while True` retry loop of `catch_telegram_errors`.  `f n` is the
outcome of the `n`-th invocation of the wrapped function (`.ok` a result,
or `.error` a raised exception); `attempt` counts invocations made so far
and `retryCount` is the Python `retry_count` variable (`max_retries = 5`).
`fuel` bounds the number of loop iterations modelled; running out of fuel
is reported as `.diverged` (the Python loop never terminates by itself on
an endless `RetryAfter` stream). -/
def wrapperLoop {α : Type} (f : Nat → Except TgErr α) :
    Nat → Nat → Nat → CallOutcome α
  | 0, _, _ => .diverged
  | fuel + 1, attempt, retryCount =>
    match f attempt with
    | .ok a => .ok a
    | .error .unauthorized => .noResult
    | .error (.retryAfter _) => wrapperLoop f fuel (attempt + 1) retryCount
    | .error .timedOut =>
      if retryCount + 1 ≥ 5 then .noResult
      else wrapperLoop f fuel (attempt + 1) (retryCount + 1)
    | .error .networkError =>
      if retryCount + 1 ≥ 5 then .noResult
      else wrapperLoop f fuel (attempt + 1) (retryCount + 1)
    | .error (.badRequest m) =>
      if msgHasNotFound m then .noResult else .raised (.badRequest m)
    | .error (.otherTelegramError _) =>
      if retryCount + 1 ≥ 5 then .noResult
      else wrapperLoop f fuel (attempt + 1) (retryCount + 1)

/-- A wrapped call as the caller sees it: the loop started with
`retry_count = 0` on the first invocation. -/
def wrapperRun {α : Type} (fuel : Nat) (f : Nat → Except TgErr α) :
    CallOutcome α :=
  wrapperLoop f fuel 0 0

/-! ## Data model (`src/database.py`) -/

/-- A row of `waitlist_entries`. -/
structure Entry where
  id : Nat
  userId : Int
  wantedUsername : String
  password : String
  createdAt : Nat
deriving Repr, DecidableEq

/-- The persisted store: the `admins` table (user ids) and the
`waitlist_entries` table in insertion order, plus the autoincrement
counter and the monotone insertion clock that assigns `created_at`. -/
structure Store where
  admins : List Int
  entries : List Entry
  nextId : Nat
  clock : Nat
deriving Repr, DecidableEq

/-- In-memory conversation state: the set of chat ids whose
`user_states[chat_id]` is `"awaiting_username"`. -/
abbrev StateMap : Type := List Int

/-- `user_states.pop(chat_id, None)`. -/
def popState (m : StateMap) (c : Int) : StateMap :=
  List.filter (fun x => x ≠ c) m

/-- `user_states[chat_id] = "awaiting_username"`. -/
def setState (m : StateMap) (c : Int) : StateMap :=
  c :: List.filter (fun x => x ≠ c) m

/-- `user_states.get(chat_id) == "awaiting_username"`. -/
def getAwaiting (m : StateMap) (c : Int) : Bool :=
  List.contains m c

/-- The whole mutable state of the dispatch loop. -/
structure BotState where
  store : Store
  states : StateMap
deriving DecidableEq

/-- An inbound message: chat id, chat type (`"private"` or other),
sender id, and optional text. -/
structure Message where
  chatId : Int
  chatType : String
  fromUserId : Int
  text : Option String
deriving Repr, DecidableEq

/-- An inbound update; `message = none` models an update carrying no
message (so no chat id is extracted). -/
structure Update where
  message : Option Message
deriving Repr, DecidableEq

/-- Reply keyboards attached to outbound messages. -/
inductive Kb where
  | user
  | admin
deriving Repr, DecidableEq

/-- Outbound Telegram calls emitted while processing one update. -/
inductive Out where
  | sendMessage (chatId : Int) (text : String) (kb : Option Kb)
  | sendDocument (chatId : Int) (filename : String) (content : String)
      (caption : String)
deriving Repr, DecidableEq

/-- Store operations performed while processing one update (the session
trace), so that "no store access" claims are expressible. -/
inductive DbOp where
  | openSession
  | queryAdminByUser (uid : Int)
  | queryEntryByUser (uid : Int)
  | countAdmins
  | insertAdmin (uid : Int)
  | queryAllEntriesOrdered
  | queryEntryByUsername (name : String)
  | insertEntry (uid : Int) (name : String) (pw : String)
  | closeSession
deriving Repr, DecidableEq

/-- Result of processing one update: the new bot state, the outbound
calls made, and the store operations performed. -/
structure StepResult where
  state : BotState
  outs : List Out
  dbOps : List DbOp
deriving DecidableEq

/-! ## Export rendering (`src/bot.py` lines 234–248) -/

/-- `ORDER BY created_at ASC` (insertion sort: a stable comparison sort,
matching SQL's deterministic result on the distinct `created_at` keys). -/
def sortByCreated (l : List Entry) : List Entry :=
  List.insertionSort (fun a b => a.createdAt ≤ b.createdAt) l

/-- One export line: `f"{i}. {e.wanted_username} {e.password}"`. -/
def exportLine (p : Nat × Entry) : String :=
  toString p.1 ++ ". " ++ p.2.wantedUsername ++ " " ++ p.2.password

/-- The 1-indexed export lines for a list of entries, oldest first. -/
def exportLines (l : List Entry) : List String :=
  (List.enumFrom 1 (sortByCreated l)).map exportLine

/-- `"\n".join(lines)` — the content of `users.txt`. -/
def exportContent (l : List Entry) : String :=
  String.intercalate "\n" (exportLines l)

/-! ## The dispatch loop body (`src/bot.py` lines 175–282)

One iteration of `for update in updates`, as a pure step function.
`pwGen` supplies the value `generate_password()` would return, indexed by
the store clock at the moment of the call. -/

def processUpdate (pwGen : Nat → String) (bs : BotState) (u : Update) :
    StepResult :=
  match u.message with
  | none =>
    -- `chat_id` stays `None`: the update is skipped before any session.
    ⟨bs, [], []⟩
  | some msg =>
    let text := pyStrip (msg.text.getD "")
    if msg.chatType ≠ "private" then
      ⟨bs, [.sendMessage msg.chatId msg_private_only none], []⟩
    else
      let s := bs.store
      let uid := msg.fromUserId
      let baseOps : List DbOp :=
        [.openSession, .queryAdminByUser uid, .queryEntryByUser uid]
      let isAdmin := s.admins.contains uid
      let entry := s.entries.find? (fun e => e.userId = uid)
      if text = "/start" then
        let states1 := popState bs.states msg.chatId
        if s.admins.length = 0 then
          -- bootstrap promotion; afterwards `is_admin = True`
          let s1 : Store := { s with admins := s.admins ++ [uid] }
          let ops := baseOps ++ [DbOp.countAdmins, DbOp.insertAdmin uid,
            DbOp.closeSession]
          match entry with
          | some _ =>
            ⟨⟨s1, states1⟩,
              [.sendMessage msg.chatId msg_first_admin none,
               .sendMessage msg.chatId msg_admin_menu (some .admin)], ops⟩
          | none =>
            ⟨⟨s1, setState states1 msg.chatId⟩,
              [.sendMessage msg.chatId msg_first_admin none,
               .sendMessage msg.chatId msg_ask_username none], ops⟩
        else
          let ops := baseOps ++ [DbOp.countAdmins, DbOp.closeSession]
          if isAdmin && entry.isSome then
            ⟨⟨s, states1⟩,
              [.sendMessage msg.chatId msg_admin_menu (some .admin)], ops⟩
          else if entry.isSome then
            ⟨⟨s, states1⟩,
              [.sendMessage msg.chatId msg_welcome_back (some .user)], ops⟩
          else
            ⟨⟨s, setState states1 msg.chatId⟩,
              [.sendMessage msg.chatId msg_ask_username none], ops⟩
      else if entry.isSome && text = msg_coming_soon_btn then
        ⟨bs, [.sendMessage msg.chatId msg_coming_soon_response none],
          baseOps ++ [DbOp.closeSession]⟩
      else if isAdmin && text = msg_admin_download then
        ⟨bs,
          [.sendDocument msg.chatId "users.txt" (exportContent s.entries)
            msg_file_caption],
          baseOps ++ [DbOp.queryAllEntriesOrdered, DbOp.closeSession]⟩
      else if getAwaiting bs.states msg.chatId && text ≠ "" then
        match normalize_username text with
        | none =>
          ⟨bs, [.sendMessage msg.chatId msg_username_invalid none],
            baseOps ++ [DbOp.closeSession]⟩
        | some uname =>
          match s.entries.find? (fun e => e.wantedUsername = uname) with
          | some _ =>
            ⟨bs, [.sendMessage msg.chatId msg_username_taken none],
              baseOps ++ [DbOp.queryEntryByUsername uname,
                DbOp.closeSession]⟩
          | none =>
            let pw := pwGen s.clock
            let e : Entry := ⟨s.nextId, uid, uname, pw, s.clock⟩
            ⟨⟨{ admins := s.admins, entries := s.entries ++ [e],
                nextId := s.nextId + 1, clock := s.clock + 1 },
              popState bs.states msg.chatId⟩,
              [.sendMessage msg.chatId msg_registered (some .user)],
              baseOps ++ [DbOp.queryEntryByUsername uname,
                DbOp.insertEntry uid uname pw, DbOp.closeSession]⟩
      else
        ⟨bs, [], baseOps ++ [DbOp.closeSession]⟩

/-- Process a batch of updates one at a time, in arrival order. -/
def runUpdates (pwGen : Nat → String) (bs : BotState) :
    List Update → BotState
  | [] => bs
  | u :: us => runUpdates pwGen (processUpdate pwGen bs u).state us

/-- The bot state over a fresh (empty) store. -/
def initState : BotState :=
  ⟨⟨[], [], 0, 0⟩, []⟩

/-! ## The commit-time uniqueness constraint (claim C2)

`database.py` declares `wanted_username` `unique=True`; `session.commit()`
on an insert violating it raises.  The dispatch loop has no exception
handler between the pre-insert check and the commit, so such an error
propagates out of update processing. -/

/-- Store-level errors. -/
inductive DbErr where
  | conflict
deriving Repr, DecidableEq

/-- `session.add(WaitlistEntry(...)); session.commit()` with the
`wanted_username` uniqueness constraint enforced at commit time. -/
def commitEntry (s : Store) (uid : Int) (uname pw : String) :
    Except DbErr Store :=
  if (s.entries.find? (fun e => e.wantedUsername = uname)).isSome then
    .error .conflict
  else
    .ok { admins := s.admins,
          entries := s.entries ++ [⟨s.nextId, uid, uname, pw, s.clock⟩],
          nextId := s.nextId + 1, clock := s.clock + 1 }

/-- The awaiting-username branch (`src/bot.py` lines 251–282) with the
check-to-commit race window made explicit: the pre-insert uniqueness
check reads `sCheck`, while the commit-time constraint is evaluated
against `sIns`, the store as it stands at insert time (another process
may have inserted the same username in between).  The Python code wraps
this region only in `try/finally` (no `except`), so a commit-time
`Conflict` escapes as `.error`. -/
def awaitingBranchRaced (sCheck sIns : Store) (states : StateMap)
    (chatId uid : Int) (text pw : String) :
    Except DbErr (Store × StateMap × List Out) :=
  match normalize_username text with
  | none =>
    .ok (sIns, states, [.sendMessage chatId msg_username_invalid none])
  | some uname =>
    match sCheck.entries.find? (fun e => e.wantedUsername = uname) with
    | some _ =>
      .ok (sIns, states, [.sendMessage chatId msg_username_taken none])
    | none =>
      match commitEntry sIns uid uname pw with
      | .error e => .error e
      | .ok s1 =>
        .ok (s1, popState states chatId,
          [.sendMessage chatId msg_registered (some .user)])

/-! ## Helper lemmas -/

/-- Any `.raised` outcome of the retry loop is a `BadRequest` whose
lowered message does not contain `"not found"`: every other clause
returns a result, `None`, or keeps looping. -/
theorem wrapperLoop_raised {α : Type} (f : Nat → Except TgErr α) :
    ∀ (fuel attempt rc : Nat) (e : TgErr),
      wrapperLoop f fuel attempt rc = .raised e →
      ∃ m, e = .badRequest m ∧ msgHasNotFound m = false := by
  intro fuel
  induction fuel with
  | zero => intro attempt rc e h; simp [wrapperLoop] at h
  | succ n ih =>
    intro attempt rc e h
    simp only [wrapperLoop] at h
    split at h
    · simp at h
    · simp at h
    · exact ih _ _ _ h
    · split at h
      · simp at h
      · exact ih _ _ _ h
    · split at h
      · simp at h
      · exact ih _ _ _ h
    · rename_i m hfa
      split at h
      · simp at h
      · rename_i hnf
        simp only [CallOutcome.raised.injEq] at h
        exact ⟨m, h.symm, by simpa using hnf⟩
    · split at h
      · simp at h
      · exact ih _ _ _ h

instance : IsTotal Entry (fun a b => a.createdAt ≤ b.createdAt) :=
  ⟨fun a b => Nat.le_total a.createdAt b.createdAt⟩

instance : IsTrans Entry (fun a b => a.createdAt ≤ b.createdAt) :=
  ⟨fun _ _ _ h1 h2 => Nat.le_trans h1 h2⟩

theorem admin_download_ne_start : msg_admin_download ≠ "/start" := by decide

theorem admin_download_ne_soon : msg_admin_download ≠ msg_coming_soon_btn := by
  decide

theorem admin_menu_ne_private : msg_admin_menu ≠ msg_private_only := by decide

theorem admin_menu_ne_first : msg_admin_menu ≠ msg_first_admin := by decide

theorem admin_menu_ne_ask : msg_admin_menu ≠ msg_ask_username := by decide

theorem admin_menu_ne_back : msg_admin_menu ≠ msg_welcome_back := by decide

theorem admin_menu_ne_soon : msg_admin_menu ≠ msg_coming_soon_response := by
  decide

theorem admin_menu_ne_invalid : msg_admin_menu ≠ msg_username_invalid := by
  decide

theorem admin_menu_ne_taken : msg_admin_menu ≠ msg_username_taken := by decide

theorem admin_menu_ne_registered : msg_admin_menu ≠ msg_registered := by decide

theorem contains_append_self (l : List Int) (a : Int) :
    (l ++ [a]).contains a = true :=
  List.elem_eq_true_of_mem (by simp)

theorem contains_length_ne_zero {l : List Int} {a : Int}
    (h : l.contains a = true) : ¬ l.length = 0 := by
  intro hlen
  rw [List.length_eq_zero] at hlen
  subst hlen
  simp [List.contains] at h

/-! ### Character arithmetic for the normalizer proofs -/

theorem toNat_ofNat_valid {n : Nat} (h : n < 0xd800) :
    (Char.ofNat n).toNat = n := by
  simp [Char.ofNat, Nat.isValidChar, h, Char.ofNatAux, Char.toNat,
    UInt32.toNat]

theorem isUpper_iff (c : Char) :
    c.isUpper = true ↔ 65 ≤ c.toNat ∧ c.toNat ≤ 90 := by
  simp [Char.isUpper, Char.toNat, UInt32.le_def, BitVec.le_def,
    UInt32.toNat]

theorem isLower_iff (c : Char) :
    c.isLower = true ↔ 97 ≤ c.toNat ∧ c.toNat ≤ 122 := by
  simp [Char.isLower, Char.toNat, UInt32.le_def, BitVec.le_def,
    UInt32.toNat]

theorem isDigit_iff (c : Char) :
    c.isDigit = true ↔ 48 ≤ c.toNat ∧ c.toNat ≤ 57 := by
  simp [Char.isDigit, Char.toNat, UInt32.le_def, BitVec.le_def,
    UInt32.toNat]

theorem toLower_def (c : Char) :
    Char.toLower c =
      if 65 ≤ c.toNat ∧ c.toNat ≤ 90 then Char.ofNat (c.toNat + 32)
      else c := by
  simp [Char.toLower, ge_iff_le]

theorem char_eq_iff_toNat {c d : Char} : c = d ↔ c.toNat = d.toNat :=
  ⟨fun h => by rw [h], fun h => Char.ext (UInt32.ext h)⟩

theorem isAlpha_iff (c : Char) :
    c.isAlpha = true ↔
      (65 ≤ c.toNat ∧ c.toNat ≤ 90) ∨
        (97 ≤ c.toNat ∧ c.toNat ≤ 122) := by
  simp [Char.isAlpha, Bool.or_eq_true, isUpper_iff, isLower_iff]

theorem isAlphanum_iff (c : Char) :
    c.isAlphanum = true ↔
      (65 ≤ c.toNat ∧ c.toNat ≤ 90) ∨
        (97 ≤ c.toNat ∧ c.toNat ≤ 122) ∨
          (48 ≤ c.toNat ∧ c.toNat ≤ 57) := by
  simp [Char.isAlphanum, Bool.or_eq_true, isAlpha_iff, isDigit_iff]
  tauto

theorem toLower_isAlpha {c : Char} (h : c.isAlpha = true) :
    c.toLower.isAlpha = true := by
  rw [toLower_def]
  split
  next h65 =>
    rw [isAlpha_iff, toNat_ofNat_valid (by omega)]
    omega
  next h65 => exact h

theorem toLower_toNat (c : Char) :
    c.toLower.toNat =
      if 65 ≤ c.toNat ∧ c.toNat ≤ 90 then c.toNat + 32 else c.toNat := by
  rw [toLower_def]
  split
  next h65 => rw [toNat_ofNat_valid (by omega)]
  next h65 => rfl

theorem toLower_word {c : Char} (h : (c.isAlphanum || c = '_') = true) :
    (c.toLower.isAlphanum || c.toLower = '_') = true := by
  have h95 : ('_' : Char).toNat = 95 := rfl
  simp only [Bool.or_eq_true, decide_eq_true_eq, isAlphanum_iff,
    char_eq_iff_toNat, h95, toLower_toNat] at h ⊢
  split <;> omega

theorem toLower_toLower (c : Char) : c.toLower.toLower = c.toLower := by
  rw [char_eq_iff_toNat, toLower_toNat, toLower_toNat]
  by_cases h : 65 ≤ c.toNat ∧ c.toNat ≤ 90
  · simp only [if_pos h]
    rw [if_neg (by omega)]
  · simp only [if_neg h]

theorem word_not_space {c : Char}
    (h : (c.isAlphanum || c = '_') = true) : pyIsSpace c = false := by
  simp only [Bool.or_eq_true, decide_eq_true_eq, isAlphanum_iff,
    char_eq_iff_toNat, show ('_' : Char).toNat = 95 from rfl] at h
  simp only [pyIsSpace, Bool.or_eq_false_iff, decide_eq_false_iff_not,
    char_eq_iff_toNat, show (' ' : Char).toNat = 32 from rfl,
    show ('\t' : Char).toNat = 9 from rfl,
    show ('\n' : Char).toNat = 10 from rfl,
    show ('\r' : Char).toNat = 13 from rfl,
    show ('\x0b' : Char).toNat = 11 from rfl,
    show ('\x0c' : Char).toNat = 12 from rfl]
  omega

theorem word_toLower_not_space {c : Char}
    (h : (c.isAlphanum || c = '_') = true) :
    pyIsSpace c.toLower = false :=
  word_not_space (toLower_word h)

/-! ### Normalizer structure lemmas -/

theorem dropWhile_eq_self_of {p : Char → Bool} {l : List Char}
    (h : ∀ c ∈ l, p c = false) : l.dropWhile p = l := by
  cases l with
  | nil => rfl
  | cons a t => simp [List.dropWhile_cons, h a (by simp)]

theorem pyStripList_eq_self {l : List Char}
    (h : ∀ c ∈ l, pyIsSpace c = false) : pyStripList l = l := by
  unfold pyStripList
  rw [dropWhile_eq_self_of h,
    dropWhile_eq_self_of (fun c hc => h c (List.mem_reverse.mp hc)),
    List.reverse_reverse]

theorem stripMarker_eq (t : List Char) :
    stripMarker t = if t.head? = some '@' then t.tail else t := by
  cases t with
  | nil => simp [stripMarker]
  | cons c rest =>
    by_cases hc : c = '@' <;> simp [stripMarker, hc]

theorem usernameBodyOk_chars {body : List Char}
    (h : usernameBodyOk body = true) :
    ∀ c ∈ body, (c.isAlphanum || c = '_') = true := by
  cases body with
  | nil => simp [usernameBodyOk] at h
  | cons b rest =>
    simp only [usernameBodyOk, Bool.and_eq_true, List.all_eq_true] at h
    intro c hc
    rcases List.mem_cons.mp hc with rfl | hmem
    · simp [Char.isAlphanum, h.1.1.1]
    · exact h.1.1.2 c hmem

theorem normalizeChars_some {cs l : List Char}
    (h : normalizeChars cs = some l) :
    ∃ body, usernameBodyOk body = true ∧
      body = stripMarker (pyStripList cs) ∧
      l = '@' :: body.map Char.toLower := by
  simp only [normalizeChars] at h
  split at h
  · exact absurd h (Option.noConfusion)
  · split at h
    next hok =>
      exact ⟨stripMarker (pyStripList cs), hok, rfl,
        (Option.some.inj h).symm⟩
    next hok => exact absurd h (Option.noConfusion)

theorem usernameBodyOk_map_toLower {body : List Char}
    (h : usernameBodyOk body = true) :
    usernameBodyOk (body.map Char.toLower) = true := by
  cases body with
  | nil => simp [usernameBodyOk] at h
  | cons b rest =>
    simp only [List.map_cons]
    simp only [usernameBodyOk, Bool.and_eq_true, List.all_eq_true,
      List.length_cons, List.length_map] at h ⊢
    obtain ⟨⟨⟨h1, h2⟩, h3⟩, h4⟩ := h
    refine ⟨⟨⟨toLower_isAlpha h1, ?_⟩, ?_⟩, ?_⟩
    · intro c hc
      simp only [List.mem_map] at hc
      obtain ⟨d, hd, rfl⟩ := hc
      exact toLower_word (h2 d hd)
    · simpa using h3
    · simpa using h4

theorem normalizeChars_fixed {body : List Char}
    (h : usernameBodyOk body = true) :
    normalizeChars ('@' :: body.map Char.toLower) =
      some ('@' :: body.map Char.toLower) := by
  have hword := usernameBodyOk_chars h
  have hstrip : pyStripList ('@' :: body.map Char.toLower) =
      '@' :: body.map Char.toLower := by
    refine pyStripList_eq_self ?_
    intro c hc
    rcases List.mem_cons.mp hc with rfl | hmem
    · decide
    · simp only [List.mem_map] at hmem
      obtain ⟨d, hd, rfl⟩ := hmem
      exact word_toLower_not_space (hword d hd)
  simp only [normalizeChars, hstrip, List.isEmpty_cons, stripMarker,
    if_pos rfl, if_neg, Bool.false_eq_true, not_false_eq_true,
    usernameBodyOk_map_toLower h, if_true]
  rw [List.map_map,
    show Char.toLower ∘ Char.toLower = Char.toLower from
      funext toLower_toLower]

/-! ### Claim-side normalizer contract (C5)

These definitions follow the wording of the spec contract for the
Username Normalizer, to be compared with `normalize_username` as
embedded from the source. -/

/-- Claim-side: a character drawn from letters, digits, underscore. -/
def isWordChar (c : Char) : Bool := c.isAlpha || (c.isDigit || c = '_')

/-- Claim-side: the marker-stripped text "starts with a letter and is
5–32 characters total drawn from letters, digits, and underscore". -/
def specBodyOk (cs : List Char) : Bool :=
  (match cs.head? with
   | some c => c.isAlpha
   | none => false) &&
    cs.all isWordChar && decide (5 ≤ cs.length) && decide (cs.length ≤ 32)

/-- Claim-side normalization: trim, drop one optional leading marker
(`@`), validate per `specBodyOk`, and return the marker-prefixed,
lower-cased form of the text; signal invalid (`none`) otherwise. -/
def specNormalize (raw : String) : Option String :=
  let t := pyStripList raw.toList
  let body := if t.head? = some '@' then t.tail else t
  if specBodyOk body then some (String.mk ('@' :: body.map Char.toLower))
  else none

theorem usernameBodyOk_eq_specBodyOk (cs : List Char) :
    usernameBodyOk cs = specBodyOk cs := by
  have hfun : (fun d : Char => d.isAlphanum || decide (d = '_')) =
      isWordChar := by
    funext d
    simp [Char.isAlphanum, isWordChar, Bool.or_assoc]
  cases cs with
  | nil => rfl
  | cons c rest =>
    simp only [usernameBodyOk, specBodyOk, List.head?_cons,
      List.all_cons, hfun]
    cases hca : c.isAlpha with
    | false => simp [hca, isWordChar]
    | true => simp [hca, isWordChar, Bool.and_assoc]

/-- One dispatch step never grows the admin table beyond one row: the
only insert is guarded by `admin_count == 0`. -/
theorem step_admins_le_one (pwGen : Nat → String) (bs : BotState)
    (u : Update) (h : bs.store.admins.length ≤ 1) :
    (processUpdate pwGen bs u).state.store.admins.length ≤ 1 := by
  obtain ⟨m⟩ := u
  cases m with
  | none => exact h
  | some msg =>
    simp only [processUpdate]
    repeat' split
    all_goals simp_all

/-- `admins.length ≤ 1` is preserved along any update sequence. -/
theorem run_admins_le_one (pwGen : Nat → String) (us : List Update) :
    ∀ bs : BotState, bs.store.admins.length ≤ 1 →
      (runUpdates pwGen bs us).store.admins.length ≤ 1 := by
  induction us with
  | nil => intro bs h; exact h
  | cons u us ih =>
    intro bs h
    exact ih _ (step_admins_le_one pwGen bs u h)

/-- Number of waitlist entries held by user `v`. -/
def entryCountFor (v : Int) (l : List Entry) : Nat :=
  (l.filter (fun e => e.userId = v)).length

/-- The platform invariant the code relies on: in a private chat the
chat id equals the sender's user id (Telegram private chats are keyed
by the peer's user id). -/
def chatMatchesSender (u : Update) : Bool :=
  match u.message with
  | none => true
  | some m => decide (m.chatType = "private" → m.chatId = m.fromUserId)

/-- The registration invariant: a chat in `AwaitingUsername` belongs to
a user with no entry, and every user holds at most one entry. -/
def RegInv (bs : BotState) : Prop :=
  (∀ c, c ∈ bs.states → entryCountFor c bs.store.entries = 0) ∧
  (∀ v, entryCountFor v bs.store.entries ≤ 1)

theorem mem_popState {m : StateMap} {x c : Int} :
    c ∈ popState m x ↔ c ∈ m ∧ c ≠ x := by
  simp [popState, List.mem_filter]

theorem mem_setState {m : StateMap} {x c : Int} :
    c ∈ setState m x ↔ c = x ∨ (c ∈ m ∧ c ≠ x) := by
  simp [setState, List.mem_filter]

theorem getAwaiting_iff_mem {m : StateMap} {c : Int} :
    getAwaiting m c = true ↔ c ∈ m := by
  simp [getAwaiting, List.contains, List.elem_iff]

theorem entryCountFor_append (v : Int) (l1 l2 : List Entry) :
    entryCountFor v (l1 ++ l2) =
      entryCountFor v l1 + entryCountFor v l2 := by
  simp [entryCountFor, List.filter_append]

theorem entryCountFor_single_ne {v : Int} {e : Entry}
    (h : e.userId ≠ v) : entryCountFor v [e] = 0 := by
  simp [entryCountFor, h]

theorem entryCountFor_single_eq {v : Int} {e : Entry}
    (h : e.userId = v) : entryCountFor v [e] = 1 := by
  simp [entryCountFor, h]

theorem find?_none_entryCountFor {v : Int} {l : List Entry}
    (h : l.find? (fun e => e.userId = v) = none) :
    entryCountFor v l = 0 := by
  rw [List.find?_eq_none] at h
  unfold entryCountFor
  rw [List.filter_eq_nil_iff.mpr h]
  rfl

/-- One dispatch step preserves the registration invariant, provided
the update satisfies the platform invariant (private chat id = sender
id): a chat enters `AwaitingUsername` only when its user has no entry,
and the single insert happens from that state, clearing it. -/
theorem step_regInv (pwGen : Nat → String) (bs : BotState) (u : Update)
    (hu : chatMatchesSender u = true) (h : RegInv bs) :
    RegInv (processUpdate pwGen bs u).state := by
  obtain ⟨m⟩ := u
  cases m with
  | none => exact h
  | some msg =>
    simp only [chatMatchesSender, decide_eq_true_eq] at hu
    simp only [processUpdate]
    split
    next hpriv => exact h
    next hpriv =>
      have hc : msg.chatId = msg.fromUserId := hu (not_not.mp hpriv)
      split
      next hstart =>
        split
        next hlen =>
          split
          next x hentry =>
            exact ⟨fun c hcm => h.1 c (mem_popState.mp hcm).1, h.2⟩
          next hentry =>
            refine ⟨?_, h.2⟩
            intro c hcm
            rcases mem_setState.mp hcm with rfl | ⟨hmem, _⟩
            · rw [hc]
              exact find?_none_entryCountFor hentry
            · exact h.1 c (mem_popState.mp hmem).1
        next hlen =>
          split
          next hcond =>
            exact ⟨fun c hcm => h.1 c (mem_popState.mp hcm).1, h.2⟩
          · split
            next hcond2 =>
              exact ⟨fun c hcm => h.1 c (mem_popState.mp hcm).1, h.2⟩
            next hcond2 =>
              refine ⟨?_, h.2⟩
              intro c hcm
              rcases mem_setState.mp hcm with rfl | ⟨hmem, _⟩
              · rw [hc]
                exact find?_none_entryCountFor
                  (Option.not_isSome_iff_eq_none.mp (by simpa using hcond2))
              · exact h.1 c (mem_popState.mp hmem).1
      next hstart =>
        split
        · exact h
        · split
          · exact h
          · split
            next hawait =>
              split
              · exact h
              next uname =>
                split
                · exact h
                next hfind =>
                  simp only [Bool.and_eq_true] at hawait
                  have hmem : msg.chatId ∈ bs.states :=
                    getAwaiting_iff_mem.mp hawait.1
                  have hcnt :
                      entryCountFor msg.fromUserId bs.store.entries = 0 :=
                    hc ▸ h.1 _ hmem
                  constructor
                  · intro c hcm
                    obtain ⟨hm2, hne⟩ := mem_popState.mp hcm
                    rw [entryCountFor_append, h.1 c hm2,
                      entryCountFor_single_ne (by simpa using (hc ▸ hne).symm)]
                  · intro v
                    by_cases hv : v = msg.fromUserId
                    · subst hv
                      rw [entryCountFor_append, hcnt]
                      simp [entryCountFor]
                    · rw [entryCountFor_append,
                        entryCountFor_single_ne (fun hj => hv hj.symm)]
                      simpa using h.2 v
            · exact h

/-- The registration invariant holds along any update sequence whose
updates satisfy the platform invariant. -/
theorem run_regInv (pwGen : Nat → String) (us : List Update)
    (hu : us.all chatMatchesSender = true) :
    ∀ bs : BotState, RegInv bs → RegInv (runUpdates pwGen bs us) := by
  induction us with
  | nil => intro bs h; exact h
  | cons u us ih =>
    intro bs h
    simp only [List.all_cons, Bool.and_eq_true] at hu
    exact ih hu.2 _ (step_regInv pwGen bs u hu.1 h)

/-! ## Claim theorems -/

/-- C1, claim as stated is false: a `BadRequest` raised by the wrapped
operation whose message does not contain "not found" is re-raised by
`catch_telegram_errors` (the bare `raise` in its `BadRequest` clause),
so the caller does receive a raised error rather than a result or
`None`. -/
theorem claim_C1_counterexample :
    wrapperRun 10
        (fun _ => (.error (.badRequest "message is too long") :
          Except TgErr Nat)) =
      .raised (.badRequest "message is too long") := by
  decide

/-- C1 (amended): the wrapper never lets a raised error reach the
caller, with one exception — a `BadRequest` whose lowered message does
not contain `"not found"` is re-raised; every other error kind results
in a successful result, the absence signal `None`, or further looping. -/
theorem claim_C1_amended {α : Type} (fuel : Nat)
    (f : Nat → Except TgErr α) (e : TgErr)
    (h : wrapperRun fuel f = .raised e) :
    ∃ m, e = .badRequest m ∧ msgHasNotFound m = false :=
  wrapperLoop_raised f fuel 0 0 e h

/-- C1 witness: the amended theorem applied at a concrete call whose
wrapped operation raises a `BadRequest` with message `"x12345"`. -/
theorem claim_C1_witness :
    (wrapperRun 3
        (fun _ => (.error (.badRequest "x12345") : Except TgErr Nat)) =
      .raised (.badRequest "x12345")) ∧
    ∃ m, (TgErr.badRequest "x12345") = .badRequest m ∧
      msgHasNotFound m = false :=
  ⟨by decide,
   claim_C1_amended 3
     (fun _ => (.error (.badRequest "x12345") : Except TgErr Nat))
     (.badRequest "x12345") (by decide)⟩

/-- C2: the code does not handle a commit-time `Conflict`.  With chat 7
in `AwaitingUsername` submitting `"alice"` while an entry for
`"@alice"` was committed between the pre-insert check (which saw an
empty table) and the insert, the uniqueness violation raised by
`session.commit()` propagates out of update processing as an error —
the user is not told "taken" and the chat's processing dies — because
the region is wrapped only in `try/finally`, never `except`. -/
theorem claim_C2_conflict_propagates :
    awaitingBranchRaced ⟨[], [], 0, 0⟩
        ⟨[], [⟨0, 9, "@alice", "q1q2q3", 0⟩], 1, 1⟩
        [7] 7 7 "alice" "p1p2p3" =
      .error .conflict :=
  rfl

/-- C3: starting from a store with zero admins, processing any sequence
of updates one at a time creates at most one admin row: promotion is
guarded by the observed admin count being zero. -/
theorem claim_C3_single_admin_bootstrap (pwGen : Nat → String)
    (us : List Update) (bs : BotState) (h : bs.store.admins = []) :
    (runUpdates pwGen bs us).store.admins.length ≤ 1 :=
  run_admins_le_one pwGen us bs (by simp [h])

/-- C3 witness: three different users all send `/start` to a fresh
store; only one admin row exists afterwards. -/
theorem claim_C3_witness :
    initState.store.admins = [] ∧
    (runUpdates (fun _ => "p1") initState
        [⟨some ⟨7, "private", 7, some "/start"⟩⟩,
         ⟨some ⟨8, "private", 8, some "/start"⟩⟩,
         ⟨some ⟨9, "private", 9, some "/start"⟩⟩]).store.admins.length ≤
      1 :=
  ⟨rfl,
   claim_C3_single_admin_bootstrap (fun _ => "p1")
     [⟨some ⟨7, "private", 7, some "/start"⟩⟩,
      ⟨some ⟨8, "private", 8, some "/start"⟩⟩,
      ⟨some ⟨9, "private", 9, some "/start"⟩⟩]
     initState rfl⟩

/-- C4: from an empty store, any update sequence satisfying the
platform invariant (a private chat's id equals its sender's user id, as
Telegram guarantees) leaves every user with at most one waitlist entry:
a chat is put in `AwaitingUsername` only when its user has no entry,
and the single registration insert clears that state. -/
theorem claim_C4_one_entry_per_user (pwGen : Nat → String)
    (us : List Update) (hu : us.all chatMatchesSender = true) (v : Int) :
    entryCountFor v (runUpdates pwGen initState us).store.entries ≤ 1 :=
  (run_regInv pwGen us hu initState
    ⟨fun c hcm => absurd hcm (List.not_mem_nil c), fun _ => Nat.le_succ 0⟩).2 v

/-- C4 witness: user 7 registers, then re-sends `/start` and another
name; user 8 registers the taken name.  User 7 ends with one entry. -/
theorem claim_C4_witness :
    ([Update.mk (some ⟨7, "private", 7, some "/start"⟩),
      Update.mk (some ⟨7, "private", 7, some "alice1"⟩),
      Update.mk (some ⟨7, "private", 7, some "/start"⟩),
      Update.mk (some ⟨7, "private", 7, some "bravo2"⟩),
      Update.mk (some ⟨8, "private", 8, some "/start"⟩),
      Update.mk (some ⟨8, "private", 8, some "alice1"⟩)].all
        chatMatchesSender = true) ∧
    entryCountFor 7 (runUpdates (fun _ => "p1") initState
      [Update.mk (some ⟨7, "private", 7, some "/start"⟩),
       Update.mk (some ⟨7, "private", 7, some "alice1"⟩),
       Update.mk (some ⟨7, "private", 7, some "/start"⟩),
       Update.mk (some ⟨7, "private", 7, some "bravo2"⟩),
       Update.mk (some ⟨8, "private", 8, some "/start"⟩),
       Update.mk (some ⟨8, "private", 8, some "alice1"⟩)]).store.entries ≤
      1 :=
  ⟨by decide,
   claim_C4_one_entry_per_user (fun _ => "p1")
     [Update.mk (some ⟨7, "private", 7, some "/start"⟩),
      Update.mk (some ⟨7, "private", 7, some "alice1"⟩),
      Update.mk (some ⟨7, "private", 7, some "/start"⟩),
      Update.mk (some ⟨7, "private", 7, some "bravo2"⟩),
      Update.mk (some ⟨8, "private", 8, some "/start"⟩),
      Update.mk (some ⟨8, "private", 8, some "alice1"⟩)]
     (by decide) 7⟩

/-- C5: `normalize_username` agrees everywhere with the spec contract
`specNormalize`: it is defined exactly when the trimmed input is an
optional leading `@` followed by text that starts with a letter and is
5–32 characters total from letters, digits, and underscore, and on
success returns the `@`-prefixed lower-cased form of that text;
otherwise (empty after trimming, bad length, bad character set,
marker-only input) it signals invalid. -/
theorem claim_C5_normalize_contract (raw : String) :
    normalize_username raw = specNormalize raw := by
  unfold normalize_username normalizeChars specNormalize
  rw [show usernameBodyOk = specBodyOk from
    funext usernameBodyOk_eq_specBodyOk]
  cases ht : pyStripList raw.toList with
  | nil => simp [specBodyOk]
  | cons c rest =>
    simp only [stripMarker_eq, List.isEmpty_cons]
    by_cases hb : specBodyOk
        (if (c :: rest).head? = some '@' then (c :: rest).tail
         else c :: rest) = true
    · simp [hb]
    · simp [hb]

/-- C6: `normalize_username` is a fixed point on its own output: if it
maps `x` to `y`, then it maps `y` to `y` as well. -/
theorem claim_C6_normalize_idempotent (x y : String)
    (h : normalize_username x = some y) :
    normalize_username y = some y := by
  unfold normalize_username at h
  rw [Option.map_eq_some'] at h
  obtain ⟨l, hl, rfl⟩ := h
  obtain ⟨body, hok, -, rfl⟩ := normalizeChars_some hl
  unfold normalize_username
  rw [show (String.mk ('@' :: body.map Char.toLower)).toList =
      '@' :: body.map Char.toLower from rfl]
  rw [normalizeChars_fixed hok]
  rfl

/-- C6 witness: `"  @My_Name1 "` normalizes to `"@my_name1"`, on which
`normalize_username` is a fixed point. -/
theorem claim_C6_witness :
    normalize_username "  @My_Name1 " = some "@my_name1" ∧
    normalize_username "@my_name1" = some "@my_name1" :=
  ⟨by decide,
   claim_C6_normalize_idempotent "  @My_Name1 " "@my_name1" (by decide)⟩

/-- C7: an admin without a waitlist entry who sends `/start` is not
shown the admin menu: the chat transitions to `AwaitingUsername`, the
username prompt is the only reply, and the store is unchanged.
Conversely (second conjunct), whenever processing any message emits the
admin-menu text, the sender both has an entry and is an admin of the
resulting store. -/
theorem claim_C7_start_admin_menu_gate :
    (∀ (pwGen : Nat → String) (bs : BotState) (msg : Message),
      msg.chatType = "private" →
      pyStrip (msg.text.getD "") = "/start" →
      bs.store.admins.contains msg.fromUserId = true →
      bs.store.entries.find? (fun e => e.userId = msg.fromUserId) = none →
      (processUpdate pwGen bs ⟨some msg⟩).outs =
        [.sendMessage msg.chatId msg_ask_username none] ∧
      getAwaiting (processUpdate pwGen bs ⟨some msg⟩).state.states
        msg.chatId = true ∧
      (processUpdate pwGen bs ⟨some msg⟩).state.store = bs.store) ∧
    (∀ (pwGen : Nat → String) (bs : BotState) (msg : Message)
        (kb : Option Kb),
      Out.sendMessage msg.chatId msg_admin_menu kb ∈
        (processUpdate pwGen bs ⟨some msg⟩).outs →
      (bs.store.entries.find?
        (fun e => e.userId = msg.fromUserId)).isSome = true ∧
      (processUpdate pwGen bs ⟨some msg⟩).state.store.admins.contains
        msg.fromUserId = true) := by
  constructor
  · intro pwGen bs msg hpriv htext hadmin hentry
    simp only [processUpdate, hpriv, htext, hentry, hadmin,
      contains_length_ne_zero hadmin]
    simp [getAwaiting, setState]
  · intro pwGen bs msg kb h
    simp only [processUpdate] at h ⊢
    split at h
    next hpriv =>
      -- non-private notice
      simp only [List.mem_singleton, Out.sendMessage.injEq] at h
      exact absurd h.2.1 admin_menu_ne_private
    next hpriv =>
      split at h
      next hstart =>
        split at h
        next hlen =>
          split at h
          next x hentry =>
            -- promoted admin with an entry: admin menu shown
            refine ⟨by simp [hentry], ?_⟩
            simp [hpriv, hstart, hlen, hentry, contains_append_self]
          next hentry =>
            simp only [List.mem_cons, List.not_mem_nil,
              Out.sendMessage.injEq] at h
            rcases h with h | h | h
            · exact absurd h.2.1 admin_menu_ne_first
            · exact absurd h.2.1 admin_menu_ne_ask
            · exact h.elim
        next hlen =>
          split at h
          next hcond =>
            -- existing admin with an entry: admin menu shown
            simp only [Bool.and_eq_true] at hcond
            obtain ⟨ha, he⟩ := hcond
            refine ⟨he, ?_⟩
            have ha2 : msg.fromUserId ∈ bs.store.admins :=
              List.mem_of_elem_eq_true ha
            simp [hpriv, hstart, hlen, ha, he, ha2]
          next hcond =>
            split at h
            · simp only [List.mem_singleton, Out.sendMessage.injEq] at h
              exact absurd h.2.1 admin_menu_ne_back
            · simp only [List.mem_singleton, Out.sendMessage.injEq] at h
              exact absurd h.2.1 admin_menu_ne_ask
      next hstart =>
        split at h
        · simp only [List.mem_singleton, Out.sendMessage.injEq] at h
          exact absurd h.2.1 admin_menu_ne_soon
        · split at h
          · simp at h
          · split at h
            · split at h
              · simp only [List.mem_singleton, Out.sendMessage.injEq] at h
                exact absurd h.2.1 admin_menu_ne_invalid
              · split at h
                · simp only [List.mem_singleton,
                    Out.sendMessage.injEq] at h
                  exact absurd h.2.1 admin_menu_ne_taken
                · simp only [List.mem_singleton,
                    Out.sendMessage.injEq] at h
                  exact absurd h.2.1 admin_menu_ne_registered
            · simp at h

/-- C7 witness: an admin (user 9) with no entry, over a store holding
someone else's entry, sends `/start` from chat 9. -/
theorem claim_C7_witness :
    ((BotState.mk ⟨[9], [⟨0, 8, "@alice", "q1", 0⟩], 1, 1⟩
        []).store.admins.contains 9 = true ∧
      (BotState.mk ⟨[9], [⟨0, 8, "@alice", "q1", 0⟩], 1, 1⟩
        []).store.entries.find? (fun e => e.userId = 9) = none) ∧
    ((processUpdate (fun _ => "p1")
        (BotState.mk ⟨[9], [⟨0, 8, "@alice", "q1", 0⟩], 1, 1⟩ [])
        ⟨some (Message.mk 9 "private" 9 (some "/start"))⟩).outs =
      [.sendMessage 9 msg_ask_username none] ∧
    getAwaiting (processUpdate (fun _ => "p1")
        (BotState.mk ⟨[9], [⟨0, 8, "@alice", "q1", 0⟩], 1, 1⟩ [])
        ⟨some (Message.mk 9 "private" 9 (some "/start"))⟩).state.states
      9 = true ∧
    (processUpdate (fun _ => "p1")
        (BotState.mk ⟨[9], [⟨0, 8, "@alice", "q1", 0⟩], 1, 1⟩ [])
        ⟨some (Message.mk 9 "private" 9 (some "/start"))⟩).state.store =
      (BotState.mk ⟨[9], [⟨0, 8, "@alice", "q1", 0⟩], 1, 1⟩ []).store) :=
  ⟨⟨by decide, by decide⟩,
   claim_C7_start_admin_menu_gate.1 (fun _ => "p1")
     (BotState.mk ⟨[9], [⟨0, 8, "@alice", "q1", 0⟩], 1, 1⟩ [])
     (Message.mk 9 "private" 9 (some "/start"))
     rfl (by decide) (by decide) (by decide)⟩

/-- C8: an admin sending the download trigger gets one outbound call, a
document built from all waitlist entries sorted by `created_at`
ascending, rendered one registrant per line as the 1-indexed line
`"{index}. {username} {credential}"` joined with newlines; the sorted
list is a permutation of the stored entries in ascending `created_at`
order. -/
theorem claim_C8_export_ordered (pwGen : Nat → String) (bs : BotState)
    (msg : Message)
    (hpriv : msg.chatType = "private")
    (htext : pyStrip (msg.text.getD "") = msg_admin_download)
    (hadmin : bs.store.admins.contains msg.fromUserId = true) :
    (processUpdate pwGen bs ⟨some msg⟩).outs =
      [.sendDocument msg.chatId "users.txt"
        (exportContent bs.store.entries) msg_file_caption] ∧
    exportContent bs.store.entries =
      String.intercalate "\n"
        ((List.enumFrom 1 (sortByCreated bs.store.entries)).map
          (fun p => toString p.1 ++ ". " ++ p.2.wantedUsername ++ " " ++
            p.2.password)) ∧
    List.Sorted (fun a b : Entry => a.createdAt ≤ b.createdAt)
      (sortByCreated bs.store.entries) ∧
    List.Perm (sortByCreated bs.store.entries) bs.store.entries := by
  refine ⟨?_, rfl, List.sorted_insertionSort _ _,
    List.perm_insertionSort _ _⟩
  simp only [processUpdate, hpriv, htext, hadmin]
  simp [admin_download_ne_start, admin_download_ne_soon]

/-- C8 witness: two entries inserted with an id gap and out-of-order
ids, exported by admin 4. -/
theorem claim_C8_witness :
    (Message.mk 4 "private" 4 (some msg_admin_download)).chatType =
      "private" ∧
    ((processUpdate (fun _ => "p1")
        (BotState.mk ⟨[4], [⟨5, 7, "@bb", "p2", 3⟩, ⟨1, 8, "@aa", "p1", 2⟩],
          9, 9⟩ [])
        ⟨some (Message.mk 4 "private" 4 (some msg_admin_download))⟩).outs =
      [.sendDocument 4 "users.txt"
        (exportContent [⟨5, 7, "@bb", "p2", 3⟩, ⟨1, 8, "@aa", "p1", 2⟩])
        msg_file_caption] ∧
    exportContent [⟨5, 7, "@bb", "p2", 3⟩, ⟨1, 8, "@aa", "p1", 2⟩] =
      String.intercalate "\n"
        ((List.enumFrom 1 (sortByCreated
          [⟨5, 7, "@bb", "p2", 3⟩, ⟨1, 8, "@aa", "p1", 2⟩])).map
          (fun p => toString p.1 ++ ". " ++ p.2.wantedUsername ++ " " ++
            p.2.password)) ∧
    List.Sorted (fun a b : Entry => a.createdAt ≤ b.createdAt)
      (sortByCreated [⟨5, 7, "@bb", "p2", 3⟩, ⟨1, 8, "@aa", "p1", 2⟩]) ∧
    List.Perm (sortByCreated [⟨5, 7, "@bb", "p2", 3⟩, ⟨1, 8, "@aa", "p1", 2⟩])
      [⟨5, 7, "@bb", "p2", 3⟩, ⟨1, 8, "@aa", "p1", 2⟩]) :=
  ⟨rfl,
   claim_C8_export_ordered (fun _ => "p1")
     (BotState.mk ⟨[4], [⟨5, 7, "@bb", "p2", 3⟩, ⟨1, 8, "@aa", "p1", 2⟩],
       9, 9⟩ [])
     (Message.mk 4 "private" 4 (some msg_admin_download))
     rfl (by decide) (by decide)⟩

/-- C9: a message from a non-private chat is answered with the fixed
private-only notice and nothing else: the conversation-state map and the
store are untouched and no store operation (not even opening a session)
is performed for that update. -/
theorem claim_C9_nonprivate_notice_only (pwGen : Nat → String)
    (bs : BotState) (msg : Message) (h : msg.chatType ≠ "private") :
    processUpdate pwGen bs ⟨some msg⟩ =
      ⟨bs, [.sendMessage msg.chatId msg_private_only none], []⟩ := by
  simp [processUpdate, h]

/-- C9 witness: a group-chat message at a concrete state. -/
theorem claim_C9_witness :
    ("group" ≠ "private") ∧
    processUpdate (fun _ => "p1p2p3")
        ⟨⟨[4], [⟨0, 9, "@alice", "q1", 0⟩], 1, 1⟩, [5]⟩
        ⟨some ⟨5, "group", 6, some "/start"⟩⟩ =
      ⟨⟨⟨[4], [⟨0, 9, "@alice", "q1", 0⟩], 1, 1⟩, [5]⟩,
        [.sendMessage 5 msg_private_only none], []⟩ :=
  ⟨by decide,
   claim_C9_nonprivate_notice_only (fun _ => "p1p2p3")
     ⟨⟨[4], [⟨0, 9, "@alice", "q1", 0⟩], 1, 1⟩, [5]⟩
     ⟨5, "group", 6, some "/start"⟩ (by decide)⟩

/-- C10: an update carrying no message is skipped entirely: no outbound
call, no change to the conversation-state map, and no store session is
opened. -/
theorem claim_C10_no_message_skipped (pwGen : Nat → String)
    (bs : BotState) :
    processUpdate pwGen bs ⟨none⟩ = ⟨bs, [], []⟩ :=
  rfl

end WaitlistSpec
